import Mathlib

/-!
Verification of the AuraReader playback/session core.

The repository ships several near-duplicate variants of the same React app.
`src/App.tsx` concatenates two of them:
  * variant A (lines 1-478): `playAudio` / `pauseAudio` / `togglePlay` /
    `loadChapterAudio` / `jumpToBookmark` and a 100 ms ticker;
  * variant B (lines 479-1014): `playBuffer` / `stopAudio` / `loadAudio` /
    `navigateToChapter` / `navigateToBookmark` / `saveAutoBookmark` /
    `addManualBookmark`.
`src/unnamed/part_000` (second half) repeats variant B's playback core
verbatim (minus the auto-bookmark call in `togglePlay`).

Times and durations are modelled as rationals (the source uses JS doubles;
every claim under scrutiny is about exact arithmetic on these values).
The Web Audio context object is modelled as always available: every modelled
entry point either runs `initAudio`/`initAudioContext` first or is only
reachable after one did, and no claim concerns a missing context.
External calls (speech synthesis + decode) are modelled by an explicit
`Except Unit ℚ` outcome parameter carrying the decoded buffer's duration;
the decoded buffer is tagged with the chapter index whose text was
synthesized, which identifies the narration the buffer holds.
-/

/-- The `Chapter` from `types.ts`. -/
structure Chapter where
  id : String
  title : String
  content : String
deriving DecidableEq

/-- The `Bookmark` from `types.ts`; `timestamp` is seconds into the chapter. -/
structure Bookmark where
  id : String
  title : String
  chapterIndex : ℕ
  timestamp : ℚ
  textSnippet : String
  createdAt : ℕ
deriving DecidableEq

/-- The `Book` from `types.ts`. -/
structure Book where
  id : String
  title : String
  author : String
  chapters : List Chapter
  bookmarks : List Bookmark
  lastPlayedChapter : ℕ
  lastPlayedTime : ℚ
deriving DecidableEq

/-- A decoded narration buffer: `duration` is the audio duration in seconds;
`chapter` records which chapter's text was sent to the synthesizer (the
identity of the audio the buffer holds). -/
structure NarrationBuffer where
  chapter : ℕ
  duration : ℚ
deriving DecidableEq

/-- The React component state plus the mutable refs of either App variant:
`book`, `isPlaying`, `currentTime`, `duration`, `currentChapterIndex`,
`isLoadingAudio`, `statusMessage` are `useState` values;
`audioBuffer` is `audioBufferRef`, `sourceActive` says whether
`sourceNodeRef.current` is non-null, `startTime` is `startTimeRef` and
`pausedAt` is `pausedAtRef`. -/
structure PlayerState where
  book : Option Book
  isPlaying : Bool
  currentTime : ℚ
  duration : ℚ
  currentChapterIndex : ℕ
  isLoadingAudio : Bool
  statusMessage : String
  audioBuffer : Option NarrationBuffer
  sourceActive : Bool
  startTime : ℚ
  pausedAt : ℚ
deriving DecidableEq

/-! ## Variant A (`src/App.tsx` lines 1-478, mirrored by `src/unnamed/part_001`) -/

namespace WebA

/-- The start-offset computation of `playAudio` (App.tsx line 145):
`Math.min(pausedAtRef.current, audioBufferRef.current.duration - 0.1)`.
Note: no lower clamp. -/
def playOffset (pausedAt dur : ℚ) : ℚ :=
  min pausedAt (dur - 1 / 10)

/-- The `playAudio` (App.tsx lines 138-157): start a new source at the computed
offset and record the clock anchor `startTime = now - offset`. -/
def playAudio (now : ℚ) (st : PlayerState) : PlayerState :=
  match st.audioBuffer with
  | none => st
  | some buf =>
    { st with startTime := now - playOffset st.pausedAt buf.duration
              sourceActive := true
              isPlaying := true }

/-- The `pauseAudio` (App.tsx lines 159-166): if a source is live, stop it and
record `pausedAt = now - startTime`. -/
def pauseAudio (now : ℚ) (st : PlayerState) : PlayerState :=
  if st.sourceActive then
    { st with pausedAt := now - st.startTime
              sourceActive := false
              isPlaying := false }
  else st

/-- The `loadChapterAudio` (App.tsx lines 113-136). `res` is the outcome of
`generateSpeech` + `decodeAudioData` (the decoded buffer's duration). -/
def loadChapterAudio (index : ℕ) (seekTo : ℚ) (res : Except Unit ℚ)
    (st : PlayerState) : PlayerState :=
  match st.book with
  | none => st
  | some bk =>
    match bk.chapters[index]? with
    | none => st
    | some ch =>
      let st1 := { st with isLoadingAudio := true
                           statusMessage :=
                             "Generating narration for: " ++ ch.title ++ "..." }
      match res with
      | .ok dur =>
        { st1 with audioBuffer := some ⟨index, dur⟩
                   duration := dur
                   pausedAt := seekTo
                   currentTime := seekTo
                   statusMessage := ""
                   isLoadingAudio := false }
      | .error _ =>
        { st1 with statusMessage := "Failed to generate audio for this chapter."
                   isLoadingAudio := false }

/-- The `togglePlay` (App.tsx lines 168-178). When no buffer is cached the code
awaits `loadChapterAudio(currentChapterIndex, pausedAtRef.current)` and then
always calls `playAudio()` (the loader catches its own errors). -/
def togglePlay (now : ℚ) (res : Except Unit ℚ) (st : PlayerState) : PlayerState :=
  if st.isPlaying then
    pauseAudio now st
  else
    match st.audioBuffer with
    | none => playAudio now (loadChapterAudio st.currentChapterIndex st.pausedAt res st)
    | some _ => playAudio now st

/-- The `jumpToBookmark` (App.tsx lines 201-211). -/
def jumpToBookmark (b : Bookmark) (now : ℚ) (res : Except Unit ℚ)
    (st : PlayerState) : PlayerState :=
  let st1 := pauseAudio now st
  if b.chapterIndex ≠ st1.currentChapterIndex then
    playAudio now (loadChapterAudio b.chapterIndex b.timestamp res
      { st1 with currentChapterIndex := b.chapterIndex })
  else
    playAudio now { st1 with pausedAt := b.timestamp, currentTime := b.timestamp }

/-- One ticker interval callback (App.tsx lines 227-240): publish
`min(now - startTime, duration)`, and when `now - startTime >= duration`
with positive duration, stop via `pauseAudio` and publish exactly
`duration`. -/
def tick (now : ℚ) (st : PlayerState) : PlayerState :=
  if st.isPlaying then
    let n := now - st.startTime
    let st1 := { st with currentTime := min n st.duration }
    if st.duration ≤ n ∧ 0 < st.duration then
      { pauseAudio now st1 with currentTime := st.duration }
    else st1
  else st

/-- The chapter-list `onClick` handler (App.tsx lines 428-436): same chapter
with a cached buffer toggles; otherwise pause, switch the index and reload
(with the default seek 0, and no autoplay afterwards). -/
def chapterListClick (i : ℕ) (now : ℚ) (res : Except Unit ℚ)
    (st : PlayerState) : PlayerState :=
  if i = st.currentChapterIndex ∧ st.audioBuffer.isSome then
    togglePlay now res st
  else
    loadChapterAudio i 0 res { pauseAudio now st with currentChapterIndex := i }

end WebA

/-! ## Variant B (`src/App.tsx` lines 479-1014; its playback core is repeated
verbatim in the second half of `src/unnamed/part_000`) -/

namespace WebB

/-- The `stopAudio` (App.tsx lines 557-563). -/
def stopAudio (st : PlayerState) : PlayerState :=
  { st with sourceActive := false, isPlaying := false }

/-- The start-offset computation of `playBuffer` (App.tsx line 625 /
part_000 line 599): `Math.max(0, Math.min(offset, buffer.duration - 0.1))`. -/
def actualOffset (offset dur : ℚ) : ℚ :=
  max 0 (min offset (dur - 1 / 10))

/-- The `playBuffer` (App.tsx lines 619-630 / part_000 lines 593-604). -/
def playBuffer (buf : NarrationBuffer) (offset now : ℚ)
    (st : PlayerState) : PlayerState :=
  let st1 := stopAudio st
  { st1 with startTime := now - actualOffset offset buf.duration
             sourceActive := true
             isPlaying := true }

/-- The synchronous prefix of `loadAudio` before its first `await`
(App.tsx lines 599-602): set the loading flag. -/
def loadAudioStart (st : PlayerState) : PlayerState :=
  { st with isLoadingAudio := true }

/-- The continuation of `loadAudio` that runs when the synthesis+decode
promise settles (App.tsx lines 604-616): on success overwrite the single
buffer slot, `duration`, `pausedAt` and `currentTime` — with NO check that
the requested chapter still matches `currentChapterIndex`. -/
def loadAudioResolve (idx : ℕ) (seek : ℚ) (res : Except Unit ℚ)
    (st : PlayerState) : PlayerState × Option NarrationBuffer :=
  match res with
  | .ok dur =>
    let buf : NarrationBuffer := ⟨idx, dur⟩
    ({ st with audioBuffer := some buf
               duration := dur
               pausedAt := seek
               currentTime := seek
               isLoadingAudio := false }, some buf)
  | .error _ =>
    ({ st with statusMessage := "Narration generation failed. Please try again."
               isLoadingAudio := false }, none)

/-- The `loadAudio` (App.tsx lines 599-617) run to completion with no interleaved
event. An out-of-range chapter index makes `book.chapters[idx].content`
throw inside the `try`, which lands in the same catch as an external
failure; this is modelled by forcing the error outcome. -/
def loadAudio (idx : ℕ) (seek : ℚ) (res : Except Unit ℚ)
    (st : PlayerState) : PlayerState × Option NarrationBuffer :=
  match st.book with
  | none => (st, none)
  | some bk =>
    let res1 := if idx < bk.chapters.length then res else Except.error ()
    loadAudioResolve idx seek res1 (loadAudioStart st)

/-- Truncation toward zero, as JS `Math.trunc` / the implicit truncation in
the `%` operator. -/
def jsTrunc (q : ℚ) : ℤ :=
  if 0 ≤ q then ⌊q⌋ else ⌈q⌉

/-- JS `a % b` (fmod): `a - b * trunc(a / b)`. -/
def jsMod (a b : ℚ) : ℚ :=
  a - b * jsTrunc (a / b)

/-- The `formatTime` (App.tsx lines 726-730): `mins:secs` with zero padding. -/
def formatTime (s : ℚ) : String :=
  let mins := ⌊s / 60⌋
  let secs := ⌊jsMod s 60⌋
  toString mins ++ ":" ++ (if secs < 10 then "0" else "") ++ toString secs

/-- The auto-bookmark test used throughout variant B:
`bm.id.startsWith("auto-")` (App.tsx lines 661, 874, 878). -/
def isAutoBookmark (bm : Bookmark) : Bool :=
  bm.id.startsWith "auto-"

/-- The `saveAutoBookmark` (App.tsx lines 650-663): build a bookmark whose id
carries the reserved `auto-` prefix, drop every previously stored
auto-bookmark, and put the fresh one at the front. `nowMs` is `Date.now()`.
(When `currentChapterIndex` is out of range the title access throws in JS;
that crashing case is modelled as a no-op and excluded by hypotheses.) -/
def saveAutoBookmark (nowMs : ℕ) (st : PlayerState) : PlayerState :=
  match st.book with
  | none => st
  | some bk =>
    match bk.chapters[st.currentChapterIndex]? with
    | none => st
    | some ch =>
      let b : Bookmark :=
        { id := "auto-" ++ Nat.repr nowMs
          title := "Last Position: " ++ ch.title
          chapterIndex := st.currentChapterIndex
          timestamp := st.currentTime
          textSnippet := "Resume from your last position..."
          createdAt := nowMs }
      let otherBookmarks := bk.bookmarks.filter fun bm => !(isAutoBookmark bm)
      { st with book := some { bk with bookmarks := b :: otherBookmarks } }

/-- The `addManualBookmark` (App.tsx lines 688-700): prepend a manual bookmark
(decimal `Date.now()` id) in front of ALL existing bookmarks. -/
def addManualBookmark (nowMs : ℕ) (st : PlayerState) : PlayerState :=
  match st.book with
  | none => st
  | some bk =>
    match bk.chapters[st.currentChapterIndex]? with
    | none => st
    | some ch =>
      let b : Bookmark :=
        { id := Nat.repr nowMs
          title := ch.title ++ " @ " ++ formatTime st.currentTime
          chapterIndex := st.currentChapterIndex
          timestamp := st.currentTime
          textSnippet := ch.content.take 100
          createdAt := nowMs }
      { st with book := some { bk with bookmarks := b :: bk.bookmarks }
                statusMessage := "Bookmark saved!" }

/-- The `togglePlay` (App.tsx lines 632-648): pausing records the clock offset,
stops the source and saves the auto-bookmark; resuming plays the cached
buffer or loads first and plays only on success. -/
def togglePlay (now : ℚ) (nowMs : ℕ) (res : Except Unit ℚ)
    (st : PlayerState) : PlayerState :=
  if st.isPlaying then
    saveAutoBookmark nowMs (stopAudio { st with pausedAt := now - st.startTime })
  else
    match st.audioBuffer with
    | none =>
      match loadAudio st.currentChapterIndex st.pausedAt res st with
      | (st1, some buf) => playBuffer buf st1.pausedAt now st1
      | (st1, none) => st1
    | some buf => playBuffer buf st.pausedAt now st

/-- The `navigateToBookmark` (App.tsx lines 665-673). -/
def navigateToBookmark (b : Bookmark) (now : ℚ) (res : Except Unit ℚ)
    (st : PlayerState) : PlayerState :=
  let st1 := { stopAudio st with currentChapterIndex := b.chapterIndex
                                 pausedAt := b.timestamp
                                 currentTime := b.timestamp }
  let st2 :=
    match loadAudio b.chapterIndex b.timestamp res st1 with
    | (s, some buf) => playBuffer buf b.timestamp now s
    | (s, none) => s
  { st2 with statusMessage := "Resumed at " ++ formatTime b.timestamp }

/-- The part of `navigateToChapter`'s else-branch that runs before the load
settles (App.tsx lines 680-683 plus `loadAudio`'s synchronous prefix). -/
def navigateToChapterStart (index : ℕ) (st : PlayerState) : PlayerState :=
  let st1 := { stopAudio st with currentChapterIndex := index
                                 pausedAt := 0
                                 currentTime := 0 }
  match st1.book with
  | none => st1
  | some _ => loadAudioStart st1

/-- The continuation of `navigateToChapter`'s else-branch once the narration
request for `index` settles (App.tsx lines 684-685): apply `loadAudio`'s
resolution and autoplay on success. `bk` is the book captured when the load
started (the book is not replaced during playback sessions). -/
def navigateToChapterFinish (index : ℕ) (now : ℚ) (res : Except Unit ℚ)
    (st : PlayerState) : PlayerState :=
  match st.book with
  | none => st
  | some bk =>
    let res1 := if index < bk.chapters.length then res else Except.error ()
    match loadAudioResolve index 0 res1 st with
    | (s, some buf) => playBuffer buf 0 now s
    | (s, none) => s

/-- The `navigateToChapter` (App.tsx lines 675-686 / part_000 lines 622-633) run
to completion with no interleaved event. -/
def navigateToChapter (index : ℕ) (now : ℚ) (nowMs : ℕ) (res : Except Unit ℚ)
    (st : PlayerState) : PlayerState :=
  if index = st.currentChapterIndex ∧ st.audioBuffer.isSome then
    togglePlay now nowMs res st
  else
    navigateToChapterFinish index now res (navigateToChapterStart index st)

/-- One ticker interval callback of variant B (App.tsx lines 711-724):
like variant A's but the forced stop only flips `isPlaying` (it neither
stops the ended source node nor touches `pausedAt`). -/
def tick (now : ℚ) (st : PlayerState) : PlayerState :=
  if st.isPlaying then
    let n := now - st.startTime
    let st1 := { st with currentTime := min n st.duration }
    if st.duration ≤ n ∧ 0 < st.duration then
      { st1 with isPlaying := false, currentTime := st.duration }
    else st1
  else st

end WebB

/-! ## `decodeAudioData` (`src/services/geminiService.ts` lines 103-120) -/

namespace Gemini

/-- The model of a Web Audio `AudioBuffer` produced by `ctx.createBuffer`
and filled by `decodeAudioData`: `length` is the frame count and
`channels` the per-channel sample lists. -/
structure AudioBufferModel where
  numberOfChannels : ℕ
  length : ℕ
  sampleRate : ℕ
  channels : List (List ℚ)
deriving DecidableEq

/-- Web Audio's `AudioBuffer.duration`: frame count over sample rate. -/
def AudioBufferModel.durationSec (b : AudioBufferModel) : ℚ :=
  (b.length : ℚ) / (b.sampleRate : ℚ)

/-- One little-endian signed 16-bit value from two bytes, as read by
`new Int16Array(data.buffer)` on a little-endian platform. -/
def toInt16 (lo hi : Fin 256) : ℤ :=
  if (lo : ℕ) + 256 * (hi : ℕ) < 32768 then ((lo : ℕ) + 256 * (hi : ℕ) : ℤ)
  else ((lo : ℕ) + 256 * (hi : ℕ) : ℤ) - 65536

/-- The whole `Int16Array` view of the byte array. -/
def toInt16List : List (Fin 256) → List ℤ
  | lo :: hi :: rest => toInt16 lo hi :: toInt16List rest
  | _ => []

/-- The `channelData[i] = dataInt16[i * numChannels + channel] / 32768.0`
(geminiService.ts line 116); the divisions are exact in JS doubles and in
Float32 for this value range, so ℚ is a faithful carrier. -/
def channelSamples (dataInt16 : List ℤ) (numChannels frameCount channel : ℕ) :
    List ℚ :=
  (List.range frameCount).map fun i =>
    ((dataInt16.getD (i * numChannels + channel) 0 : ℤ) : ℚ) / 32768

/-- The `decodeAudioData` (geminiService.ts lines 103-120). Call sites pass only
`(data, ctx)`, so `sampleRate = 24000` and `numChannels = 1`. Two error
paths of the real code are modelled: `new Int16Array(data.buffer)` throws a
RangeError when the byte length is not a multiple of 2 (line 109), and
`ctx.createBuffer(numChannels, frameCount, sampleRate)` throws a
NotSupportedError when `frameCount = 0` (line 111, Web Audio forbids
zero-length buffers). -/
def decodeAudioData (data : List (Fin 256)) (sampleRate numChannels : ℕ) :
    Except Unit AudioBufferModel :=
  if data.length % 2 ≠ 0 then
    .error ()
  else if (toInt16List data).length / numChannels = 0 then
    .error ()
  else
    let dataInt16 := toInt16List data
    let frameCount := dataInt16.length / numChannels
    .ok { numberOfChannels := numChannels
          length := frameCount
          sampleRate := sampleRate
          channels := (List.range numChannels).map fun ch =>
            channelSamples dataInt16 numChannels frameCount ch }

end Gemini

/-! ## Concrete fixtures used by witnesses and counterexamples -/

/-- A three-chapter demo chapter. -/
def demoChapter (i : ℕ) : Chapter :=
  { id := Nat.repr i, title := "Chapter " ++ Nat.repr i, content := "Some chapter text." }

/-- A freshly uploaded demo book (three chapters, no bookmarks). -/
def demoBook : Book :=
  { id := "b1", title := "Demo", author := "A. Author"
    chapters := [demoChapter 0, demoChapter 1, demoChapter 2]
    bookmarks := [], lastPlayedChapter := 0, lastPlayedTime := 0 }

/-- The state right after uploading `demoBook`, before any audio is loaded. -/
def idleDemo : PlayerState :=
  { book := some demoBook, isPlaying := false, currentTime := 0, duration := 0
    currentChapterIndex := 0, isLoadingAudio := false, statusMessage := ""
    audioBuffer := none, sourceActive := false, startTime := 0, pausedAt := 0 }

/-- The `idleDemo` after chapter 0's narration (duration 1 s) has been cached. -/
def cachedDemo : PlayerState :=
  { idleDemo with audioBuffer := some ⟨0, 1⟩, duration := 1 }

/-- A state in the middle of playback of a 60 s narration of chapter 0,
anchored at clock time 0. -/
def playingDemo : PlayerState :=
  { idleDemo with audioBuffer := some ⟨0, 60⟩, duration := 60
                  isPlaying := true, sourceActive := true
                  startTime := 0, currentTime := 5 }

/-- A state whose `pausedAt` is negative (as e.g. a corrupted persisted
session can produce): `playAudio` receives it unfiltered. -/
def negOffsetDemo : PlayerState :=
  { idleDemo with audioBuffer := some ⟨0, 10⟩, duration := 10, pausedAt := -1 }

/-- A state with a cached narration of only 0.95 s, used to exhibit the
end-of-track overshoot of the ticker. -/
def shortDemo : PlayerState :=
  { idleDemo with audioBuffer := some ⟨0, 19 / 20⟩, duration := 19 / 20 }

/-- Run a sequence of variant-A ticker callbacks at the given clock times. -/
def WebA.runTicks (ticks : List ℚ) (st : PlayerState) : PlayerState :=
  ticks.foldl (fun s u => WebA.tick u s) st

/-- The offset bookkeeping invariant provable for variant A:
`pausedAt ∈ [0, duration + 0.1]` (one ticker interval of slack above
`duration`; the exact `[0, duration]` of the spec fails, see the
counterexample for claim C8). -/
def WebA.InvA (st : PlayerState) : Prop :=
  0 ≤ st.pausedAt ∧ st.pausedAt ≤ st.duration + 1 / 10

/-- The operations of variant A that claim C8 ranges over, each guarded by
the conditions under which it is exercised by a well-behaved run: the
clock is monotone (elapsed time is nonnegative), pauses and ticks happen at
most one 100 ms ticker interval past the end of track (regular ticking
stops playback no later than that), and every seek offset handed to the
loader or taken from a bookmark lies within the target buffer's duration. -/
inductive WebA.GStep : PlayerState → PlayerState → Prop
  | playStep (now : ℚ) (st : PlayerState) :
      WebA.GStep st (WebA.playAudio now st)
  | pauseStep (now : ℚ) (st : PlayerState)
      (h0 : st.sourceActive = true → 0 ≤ now - st.startTime)
      (h1 : st.sourceActive = true → now - st.startTime ≤ st.duration + 1 / 10) :
      WebA.GStep st (WebA.pauseAudio now st)
  | loadStep (index : ℕ) (seekTo : ℚ) (res : Except Unit ℚ) (st : PlayerState)
      (h : ∀ dur, res = .ok dur → 0 ≤ seekTo ∧ seekTo ≤ dur) :
      WebA.GStep st (WebA.loadChapterAudio index seekTo res st)
  | toggleStep (now : ℚ) (res : Except Unit ℚ) (st : PlayerState)
      (h0 : st.sourceActive = true → 0 ≤ now - st.startTime)
      (h1 : st.sourceActive = true → now - st.startTime ≤ st.duration + 1 / 10)
      (h2 : ∀ dur, res = .ok dur → st.pausedAt ≤ dur) :
      WebA.GStep st (WebA.togglePlay now res st)
  | tickStep (now : ℚ) (st : PlayerState)
      (h0 : st.sourceActive = true → 0 ≤ now - st.startTime)
      (h1 : st.sourceActive = true → now - st.startTime ≤ st.duration + 1 / 10) :
      WebA.GStep st (WebA.tick now st)
  | jumpStep (b : Bookmark) (now : ℚ) (res : Except Unit ℚ) (st : PlayerState)
      (h0 : st.sourceActive = true → 0 ≤ now - st.startTime)
      (h1 : st.sourceActive = true → now - st.startTime ≤ st.duration + 1 / 10)
      (hb0 : 0 ≤ b.timestamp)
      (hb1 : b.timestamp ≤ st.duration + 1 / 10)
      (hb2 : ∀ dur, res = .ok dur → b.timestamp ≤ dur) :
      WebA.GStep st (WebA.jumpToBookmark b now res st)
  | clickStep (i : ℕ) (now : ℚ) (res : Except Unit ℚ) (st : PlayerState)
      (h0 : st.sourceActive = true → 0 ≤ now - st.startTime)
      (h1 : st.sourceActive = true → now - st.startTime ≤ st.duration + 1 / 10)
      (h2 : ∀ dur, res = .ok dur → st.pausedAt ≤ dur)
      (h3 : ∀ dur, res = .ok dur → 0 ≤ dur) :
      WebA.GStep st (WebA.chapterListClick i now res st)

/-- The number of auto-bookmarks held by the active book. -/
def WebB.autoCount (st : PlayerState) : ℕ :=
  match st.book with
  | none => 0
  | some bk => (bk.bookmarks.filter WebB.isAutoBookmark).length

/-- The operations of variant B that can run between two states, for the
auto-bookmark invariant of claim C9. The manual-add step carries the (always
true, computation-checkable) fact that a decimal `Date.now()` id does not
start with the reserved `auto-` prefix. Upload creates a book with an empty
bookmark list (App.tsx line 581). -/
inductive WebB.BStep : PlayerState → PlayerState → Prop
  | toggleStep (now : ℚ) (nowMs : ℕ) (res : Except Unit ℚ) (st : PlayerState) :
      WebB.BStep st (WebB.togglePlay now nowMs res st)
  | manualStep (nowMs : ℕ) (st : PlayerState)
      (h : (Nat.repr nowMs).startsWith "auto-" = false) :
      WebB.BStep st (WebB.addManualBookmark nowMs st)
  | navChapStep (index : ℕ) (now : ℚ) (nowMs : ℕ) (res : Except Unit ℚ)
      (st : PlayerState) :
      WebB.BStep st (WebB.navigateToChapter index now nowMs res st)
  | navBmStep (b : Bookmark) (now : ℚ) (res : Except Unit ℚ) (st : PlayerState) :
      WebB.BStep st (WebB.navigateToBookmark b now res st)
  | tickStep (now : ℚ) (st : PlayerState) :
      WebB.BStep st (WebB.tick now st)
  | playStep (buf : NarrationBuffer) (offset now : ℚ) (st : PlayerState) :
      WebB.BStep st (WebB.playBuffer buf offset now st)
  | loadStep (idx : ℕ) (seek : ℚ) (res : Except Unit ℚ) (st : PlayerState) :
      WebB.BStep st (WebB.loadAudio idx seek res st).1
  | stopStep (st : PlayerState) :
      WebB.BStep st (WebB.stopAudio st)
  | uploadStep (nowMs : ℕ) (title author : String) (chs : List Chapter)
      (st : PlayerState) :
      WebB.BStep st
        { st with
            book := some
              { id := Nat.repr nowMs, title := title, author := author
                chapters := chs, bookmarks := []
                lastPlayedChapter := 0, lastPlayedTime := 0 }
            currentChapterIndex := 0
            pausedAt := 0
            currentTime := 0
            audioBuffer := none }

/-! ## Theorems -/

/-- Claim C2: while Playing, a ticker tick publishes the position
`min (currentClockTime - anchor) duration`; the published position never
exceeds `duration`; and on a tick where the elapsed time reaches a positive
`duration` the engine is forced to Stopped with the position exactly
`duration`. (Variant A ticker, App.tsx lines 227-240; the part_001 ticker
differs only in dropping the `duration > 0` guard, which this claim does not
exercise.) -/
theorem webA_tick_publishes_clamped_position (now : ℚ) (st : PlayerState)
    (hp : st.isPlaying = true) (hs : st.sourceActive = true) :
    (WebA.tick now st).currentTime = min (now - st.startTime) st.duration ∧
    (WebA.tick now st).currentTime ≤ st.duration ∧
    (st.duration ≤ now - st.startTime → 0 < st.duration →
      (WebA.tick now st).isPlaying = false ∧
      (WebA.tick now st).currentTime = st.duration) := by
  by_cases hc : st.duration ≤ now - st.startTime ∧ 0 < st.duration
  · simp [WebA.tick, WebA.pauseAudio, hp, hs, hc, min_eq_right hc.1]
  · simp only [WebA.tick, hp, if_true, if_neg hc]
    exact ⟨trivial, min_le_right _ _, fun h1 h2 => absurd ⟨h1, h2⟩ hc⟩

/-- Witness for C2: a tick at clock time 61 on `playingDemo` (duration 60,
anchor 0) stops playback and pins the position to 60. -/
theorem webA_tick_publishes_clamped_position_witness :
    playingDemo.isPlaying = true ∧ playingDemo.sourceActive = true ∧
    ((WebA.tick 61 playingDemo).currentTime =
        min (61 - playingDemo.startTime) playingDemo.duration ∧
      (WebA.tick 61 playingDemo).currentTime ≤ playingDemo.duration ∧
      (playingDemo.duration ≤ 61 - playingDemo.startTime →
        0 < playingDemo.duration →
        (WebA.tick 61 playingDemo).isPlaying = false ∧
        (WebA.tick 61 playingDemo).currentTime = playingDemo.duration)) :=
  ⟨rfl, rfl, webA_tick_publishes_clamped_position 61 playingDemo rfl rfl⟩

/-- Claim C3 counterexample: App.tsx's `playAudio` computes its start offset
as `min(pausedAt, duration - 0.1)` with no lower clamp, so a negative
requested offset (here `-1` with a 10 s buffer) is passed through negative
to `source.start`, and even a requested offset of `0` goes negative when the
buffer is shorter than 0.1 s. -/
theorem webA_playAudio_offset_can_be_negative :
    WebA.playOffset (-1) 10 = -1 ∧
    WebA.playOffset 0 (1 / 20) = -(1 / 20) ∧
    (WebA.playAudio 0 negOffsetDemo).startTime = 1 := by
  refine ⟨?_, ?_, ?_⟩ <;>
    simp [WebA.playAudio, WebA.playOffset, negOffsetDemo, idleDemo, min_def] <;>
    norm_num

/-- Claim C3 (amended): the `playBuffer` variants (part_000 lines 593-604 and
App.tsx lines 619-630) clamp the requested offset to
`max 0 (min offset (duration - 0.1))`, which for positive duration is never
negative and strictly before the buffer's end, for every requested offset;
App.tsx's `playAudio` (lines 138-157) clamps only from above by
`duration - 0.1` and can start at a negative offset. -/
theorem playBuffer_start_offset_clamped (off d now : ℚ) (buf : NarrationBuffer)
    (st : PlayerState) (hd : 0 < d) :
    0 ≤ WebB.actualOffset off d ∧
    WebB.actualOffset off d < d ∧
    WebA.playOffset off d ≤ d - 1 / 10 ∧
    (WebB.playBuffer buf off now st).startTime =
      now - WebB.actualOffset off buf.duration := by
  refine ⟨le_max_left _ _, ?_, min_le_right _ _, rfl⟩
  have h1 : min off (d - 1 / 10) ≤ d - 1 / 10 := min_le_right _ _
  have h2 : d - 1 / 10 < d := by linarith
  exact max_lt hd (lt_of_le_of_lt h1 h2)

/-- Witness for the amended C3 at the requested offset `-3` on a 5 s buffer:
the actual start offset is clamped into `[0, 5)`. -/
theorem playBuffer_start_offset_clamped_witness :
    (0 : ℚ) < 5 ∧
    (0 ≤ WebB.actualOffset (-3) 5 ∧
      WebB.actualOffset (-3) 5 < 5 ∧
      WebA.playOffset (-3) 5 ≤ 5 - 1 / 10 ∧
      (WebB.playBuffer ⟨0, 5⟩ (-3) 7 idleDemo).startTime =
        7 - WebB.actualOffset (-3) (5 : ℚ)) :=
  ⟨by norm_num, playBuffer_start_offset_clamped (-3) 5 7 ⟨0, 5⟩ idleDemo (by norm_num)⟩

/-- Claim C4: a failing narration load (remote synthesis or decode error)
leaves the cached buffer, `duration`, `pausedAt` and `currentChapterIndex`
unchanged, ends with the loading flag false, and surfaces an error status
message — for variant A's `loadChapterAudio` (App.tsx lines 113-136) and
variant B's `loadAudio` (App.tsx lines 599-617 / part_000 lines 570-591),
which additionally returns `null`. -/
theorem load_failure_preserves_state (st st2 : PlayerState)
    (index idx2 : ℕ) (seekTo seek2 : ℚ) (bk bk2 : Book) (ch : Chapter)
    (hb : st.book = some bk) (hch : bk.chapters[index]? = some ch)
    (hb2 : st2.book = some bk2) :
    ((WebA.loadChapterAudio index seekTo (.error ()) st).audioBuffer = st.audioBuffer ∧
      (WebA.loadChapterAudio index seekTo (.error ()) st).duration = st.duration ∧
      (WebA.loadChapterAudio index seekTo (.error ()) st).pausedAt = st.pausedAt ∧
      (WebA.loadChapterAudio index seekTo (.error ()) st).currentChapterIndex =
        st.currentChapterIndex ∧
      (WebA.loadChapterAudio index seekTo (.error ()) st).isLoadingAudio = false ∧
      (WebA.loadChapterAudio index seekTo (.error ()) st).statusMessage =
        "Failed to generate audio for this chapter.") ∧
    ((WebB.loadAudio idx2 seek2 (.error ()) st2).1.audioBuffer = st2.audioBuffer ∧
      (WebB.loadAudio idx2 seek2 (.error ()) st2).1.duration = st2.duration ∧
      (WebB.loadAudio idx2 seek2 (.error ()) st2).1.pausedAt = st2.pausedAt ∧
      (WebB.loadAudio idx2 seek2 (.error ()) st2).1.currentChapterIndex =
        st2.currentChapterIndex ∧
      (WebB.loadAudio idx2 seek2 (.error ()) st2).1.isLoadingAudio = false ∧
      (WebB.loadAudio idx2 seek2 (.error ()) st2).2 = none ∧
      (WebB.loadAudio idx2 seek2 (.error ()) st2).1.statusMessage =
        "Narration generation failed. Please try again.") := by
  constructor
  · simp [WebA.loadChapterAudio, hb, hch]
  · simp [WebB.loadAudio, WebB.loadAudioStart, WebB.loadAudioResolve, hb2, ite_self]

/-- Witness for C4: a failing load of chapter 1 from `cachedDemo` keeps
chapter 0's buffer, the duration, the offset and the chapter index. -/
theorem load_failure_preserves_state_witness :
    idleDemo.book = some demoBook ∧ demoBook.chapters[1]? = some (demoChapter 1) ∧
    cachedDemo.book = some demoBook ∧
    (((WebA.loadChapterAudio 1 (5 : ℚ) (.error ()) idleDemo).audioBuffer =
        idleDemo.audioBuffer ∧
      (WebA.loadChapterAudio 1 (5 : ℚ) (.error ()) idleDemo).duration =
        idleDemo.duration ∧
      (WebA.loadChapterAudio 1 (5 : ℚ) (.error ()) idleDemo).pausedAt =
        idleDemo.pausedAt ∧
      (WebA.loadChapterAudio 1 (5 : ℚ) (.error ()) idleDemo).currentChapterIndex =
        idleDemo.currentChapterIndex ∧
      (WebA.loadChapterAudio 1 (5 : ℚ) (.error ()) idleDemo).isLoadingAudio = false ∧
      (WebA.loadChapterAudio 1 (5 : ℚ) (.error ()) idleDemo).statusMessage =
        "Failed to generate audio for this chapter.") ∧
    ((WebB.loadAudio 1 (5 : ℚ) (.error ()) cachedDemo).1.audioBuffer =
        cachedDemo.audioBuffer ∧
      (WebB.loadAudio 1 (5 : ℚ) (.error ()) cachedDemo).1.duration =
        cachedDemo.duration ∧
      (WebB.loadAudio 1 (5 : ℚ) (.error ()) cachedDemo).1.pausedAt =
        cachedDemo.pausedAt ∧
      (WebB.loadAudio 1 (5 : ℚ) (.error ()) cachedDemo).1.currentChapterIndex =
        cachedDemo.currentChapterIndex ∧
      (WebB.loadAudio 1 (5 : ℚ) (.error ()) cachedDemo).1.isLoadingAudio = false ∧
      (WebB.loadAudio 1 (5 : ℚ) (.error ()) cachedDemo).2 = none ∧
      (WebB.loadAudio 1 (5 : ℚ) (.error ()) cachedDemo).1.statusMessage =
        "Narration generation failed. Please try again.")) :=
  ⟨rfl, rfl, rfl,
    load_failure_preserves_state idleDemo cachedDemo 1 1 5 5 demoBook demoBook
      (demoChapter 1) rfl rfl rfl⟩

/-- Every decoded 16-bit value is in the signed 16-bit range. -/
lemma Gemini.toInt16_bounds (lo hi : Fin 256) :
    -32768 ≤ Gemini.toInt16 lo hi ∧ Gemini.toInt16 lo hi ≤ 32767 := by
  unfold Gemini.toInt16
  have h1 : (lo : ℕ) < 256 := lo.isLt
  have h2 : (hi : ℕ) < 256 := hi.isLt
  split <;> constructor <;> omega

/-- Every entry of the `Int16Array` view is in the signed 16-bit range. -/
lemma Gemini.mem_toInt16List_bounds :
    ∀ (data : List (Fin 256)), ∀ z ∈ Gemini.toInt16List data,
      -32768 ≤ z ∧ z ≤ 32767
  | [] => by simp [Gemini.toInt16List]
  | [x] => by simp [Gemini.toInt16List]
  | lo :: hi :: rest => by
    intro z hz
    simp only [Gemini.toInt16List, List.mem_cons] at hz
    rcases hz with h | h
    · subst h; exact Gemini.toInt16_bounds lo hi
    · exact Gemini.mem_toInt16List_bounds rest z h

/-- The `Int16Array` view has `⌊byteLength / 2⌋` entries. -/
lemma Gemini.toInt16List_length :
    ∀ data : List (Fin 256), (Gemini.toInt16List data).length = data.length / 2
  | [] => by simp [Gemini.toInt16List]
  | [x] => by simp [Gemini.toInt16List]
  | _ :: _ :: rest => by
    simp only [Gemini.toInt16List, List.length_cons,
      Gemini.toInt16List_length rest]
    omega

/-- Entry `i` of the `Int16Array` view is the little-endian pair at bytes
`2i`, `2i+1`. -/
lemma Gemini.toInt16List_getD :
    ∀ (data : List (Fin 256)) (i : ℕ), 2 * i + 1 < data.length →
      (Gemini.toInt16List data).getD i 0 =
        Gemini.toInt16 (data.getD (2 * i) 0) (data.getD (2 * i + 1) 0)
  | [], i, h => by simp at h
  | [x], i, h => by simp at h
  | lo :: hi :: rest, 0, _ => by simp [Gemini.toInt16List]
  | lo :: hi :: rest, i + 1, h => by
    have ih := Gemini.toInt16List_getD rest i (by
      simp only [List.length_cons] at h; omega)
    have e1 : 2 * (i + 1) = 2 * i + 1 + 1 := by ring
    have e2 : 2 * (i + 1) + 1 = 2 * i + 1 + 1 + 1 := by ring
    simp only [Gemini.toInt16List, List.getD_cons_succ, e1, e2]
    exact ih

/-- Claim C10 counterexample: a single-byte input makes
`new Int16Array(data.buffer)` throw (byte length not a multiple of 2), and
the empty input makes `ctx.createBuffer(1, 0, 24000)` throw (zero-length
buffers are not supported) — in both cases `decodeAudioData` fails instead
of returning the `⌊byteLength/2⌋ = 0`-frame buffer the claim promises for
every byte array. -/
theorem decodeAudioData_odd_length_fails :
    Gemini.decodeAudioData [(0 : Fin 256)] 24000 1 = .error () ∧
    Gemini.decodeAudioData ([] : List (Fin 256)) 24000 1 = .error () :=
  ⟨rfl, rfl⟩

/-- Claim C10 (amended): for every NONEMPTY byte array of EVEN length,
`decodeAudioData` at `numChannels = 1`, `sampleRate = 24000` returns a
buffer with exactly `byteLength / 2` frames whose sample `i` is the
little-endian signed 16-bit integer at byte position `2i` divided by
`32768` — hence every sample lies in `[-1, 1)` — and whose duration is
`frameCount / 24000`. Odd-length inputs fail (the `Int16Array` construction
throws a RangeError) and the empty input fails (`createBuffer` rejects a
zero-frame buffer) rather than producing a `⌊byteLength/2⌋`-frame buffer. -/
theorem decodeAudioData_even_spec (data : List (Fin 256))
    (h : data.length % 2 = 0) (hne : 0 < data.length) :
    ∃ b : Gemini.AudioBufferModel,
      Gemini.decodeAudioData data 24000 1 = .ok b ∧
      b.numberOfChannels = 1 ∧
      b.sampleRate = 24000 ∧
      b.length = data.length / 2 ∧
      b.durationSec = ((data.length / 2 : ℕ) : ℚ) / 24000 ∧
      ∃ samples : List ℚ,
        b.channels = [samples] ∧
        samples.length = data.length / 2 ∧
        (∀ i : ℕ, 2 * i + 1 < data.length →
          samples.getD i 0 =
            ((Gemini.toInt16 (data.getD (2 * i) 0) (data.getD (2 * i + 1) 0) : ℤ) : ℚ)
              / 32768) ∧
        (∀ x ∈ samples, -1 ≤ x ∧ x < 1) := by
  have hlen := Gemini.toInt16List_length data
  have hbound : ∀ i : ℕ, -32768 ≤ (Gemini.toInt16List data).getD i 0 ∧
      (Gemini.toInt16List data).getD i 0 ≤ 32767 := by
    intro i
    by_cases hil : i < (Gemini.toInt16List data).length
    · exact Gemini.mem_toInt16List_bounds data _
        (List.getD_eq_getElem _ _ hil ▸ List.getElem_mem _)
    · rw [List.getD_eq_default _ _ (by omega)]
      constructor <;> norm_num
  unfold Gemini.decodeAudioData
  rw [if_neg (by omega : ¬data.length % 2 ≠ 0),
    if_neg (by omega : ¬(Gemini.toInt16List data).length / 1 = 0)]
  refine ⟨_, rfl, rfl, rfl, by simpa using hlen,
    by simp [Gemini.AudioBufferModel.durationSec, hlen], ?_⟩
  refine ⟨Gemini.channelSamples (Gemini.toInt16List data) 1
    ((Gemini.toInt16List data).length / 1) 0, by rfl, ?_, ?_, ?_⟩
  · simp [Gemini.channelSamples, hlen]
  · intro i hi
    have hifc : i < (Gemini.toInt16List data).length := by omega
    simp only [Gemini.channelSamples, Nat.div_one, List.getD_eq_getElem?_getD,
      List.getElem?_map, List.getElem?_range hifc, Option.map_some',
      Option.getD_some, mul_one, add_zero]
    rw [← List.getD_eq_getElem?_getD, Gemini.toInt16List_getD data i hi]
    simp [List.getD_eq_getElem?_getD]
  · intro x hx
    simp only [Gemini.channelSamples, List.mem_map, List.mem_range, mul_one,
      add_zero] at hx
    obtain ⟨i, _, hxe⟩ := hx
    have hz := hbound i
    subst hxe
    constructor
    · rw [le_div_iff₀ (by norm_num : (0 : ℚ) < 32768)]
      have h1 : ((-32768 : ℤ) : ℚ) ≤ (((Gemini.toInt16List data).getD i 0 : ℤ) : ℚ) := by
        exact_mod_cast hz.1
      push_cast at h1 ⊢
      linarith
    · rw [div_lt_one (by norm_num : (0 : ℚ) < 32768)]
      have h2 : (((Gemini.toInt16List data).getD i 0 : ℤ) : ℚ) ≤ ((32767 : ℤ) : ℚ) := by
        exact_mod_cast hz.2
      push_cast at h2 ⊢
      linarith

/-- Witness for the amended C10: the two-byte input `[0x00, 0x80]` decodes
to a single frame whose sample is `-32768 / 32768 = -1`. -/
theorem decodeAudioData_even_spec_witness :
    ([(0 : Fin 256), (128 : Fin 256)] : List (Fin 256)).length % 2 = 0 ∧
    0 < ([(0 : Fin 256), (128 : Fin 256)] : List (Fin 256)).length ∧
    ∃ b : Gemini.AudioBufferModel,
      Gemini.decodeAudioData [(0 : Fin 256), (128 : Fin 256)] 24000 1 = .ok b ∧
      b.numberOfChannels = 1 ∧
      b.sampleRate = 24000 ∧
      b.length = ([(0 : Fin 256), (128 : Fin 256)] : List (Fin 256)).length / 2 ∧
      b.durationSec =
        ((([(0 : Fin 256), (128 : Fin 256)] : List (Fin 256)).length / 2 : ℕ) : ℚ)
          / 24000 ∧
      ∃ samples : List ℚ,
        b.channels = [samples] ∧
        samples.length =
          ([(0 : Fin 256), (128 : Fin 256)] : List (Fin 256)).length / 2 ∧
        (∀ i : ℕ,
          2 * i + 1 < ([(0 : Fin 256), (128 : Fin 256)] : List (Fin 256)).length →
          samples.getD i 0 =
            ((Gemini.toInt16
                (([(0 : Fin 256), (128 : Fin 256)] : List (Fin 256)).getD (2 * i) 0)
                (([(0 : Fin 256), (128 : Fin 256)] : List (Fin 256)).getD (2 * i + 1) 0) :
                ℤ) : ℚ) / 32768) ∧
        (∀ x ∈ samples, -1 ≤ x ∧ x < 1) :=
  ⟨rfl, by norm_num, decodeAudioData_even_spec [0, 128] rfl (by norm_num)⟩

/-- Claim C6: `navigateToChapter index` (part_000 lines 622-633, identical in
App.tsx lines 675-686) is literally `togglePlay()` when `index` is the
current chapter and a buffer is cached; for any other target it ends with
the chapter index set to `index`, `pausedAt` reset to 0, the new chapter's
narration loaded at offset 0 and playback started at offset 0 on success,
while on a failed load it stays stopped with the old buffer untouched. -/
theorem webB_navigateToChapter_spec (index : ℕ) (now : ℚ) (nowMs : ℕ)
    (res : Except Unit ℚ) (st : PlayerState) (bk : Book) (dur : ℚ) :
    (index = st.currentChapterIndex → st.audioBuffer.isSome = true →
      WebB.navigateToChapter index now nowMs res st =
        WebB.togglePlay now nowMs res st) ∧
    (¬(index = st.currentChapterIndex ∧ st.audioBuffer.isSome = true) →
      st.book = some bk → index < bk.chapters.length → res = .ok dur →
      ((WebB.navigateToChapter index now nowMs res st).currentChapterIndex = index ∧
        (WebB.navigateToChapter index now nowMs res st).pausedAt = 0 ∧
        (WebB.navigateToChapter index now nowMs res st).audioBuffer =
          some ⟨index, dur⟩ ∧
        (WebB.navigateToChapter index now nowMs res st).duration = dur ∧
        (WebB.navigateToChapter index now nowMs res st).isPlaying = true ∧
        (WebB.navigateToChapter index now nowMs res st).startTime = now)) ∧
    (¬(index = st.currentChapterIndex ∧ st.audioBuffer.isSome = true) →
      st.book = some bk → res = .error () →
      ((WebB.navigateToChapter index now nowMs res st).isPlaying = false ∧
        (WebB.navigateToChapter index now nowMs res st).currentChapterIndex = index ∧
        (WebB.navigateToChapter index now nowMs res st).pausedAt = 0 ∧
        (WebB.navigateToChapter index now nowMs res st).audioBuffer =
          st.audioBuffer)) := by
  have h0 : ∀ d : ℚ, WebB.actualOffset 0 d = 0 := fun d =>
    max_eq_left (min_le_left 0 (d - 1 / 10))
  refine ⟨?_, ?_, ?_⟩
  · intro h1 h2
    unfold WebB.navigateToChapter
    rw [if_pos ⟨h1, h2⟩]
  · intro hn hb hlt hres
    subst hres
    unfold WebB.navigateToChapter
    rw [if_neg hn]
    simp [WebB.navigateToChapterFinish, WebB.navigateToChapterStart,
      WebB.loadAudioStart, WebB.loadAudioResolve, WebB.playBuffer,
      WebB.stopAudio, hb, hlt, h0]
  · intro hn hb hres
    subst hres
    unfold WebB.navigateToChapter
    rw [if_neg hn]
    by_cases hlt : index < bk.chapters.length <;>
      simp [WebB.navigateToChapterFinish, WebB.navigateToChapterStart,
        WebB.loadAudioStart, WebB.loadAudioResolve, WebB.stopAudio, hb, hlt]

/-- Witness for C6: from `idleDemo` (current chapter 0, no buffer),
navigating to chapter 1 with a successful 8 s load plays chapter 1 from
offset 0 anchored at the call's clock time 3. -/
theorem webB_navigateToChapter_spec_witness :
    ¬((1 : ℕ) = idleDemo.currentChapterIndex ∧ idleDemo.audioBuffer.isSome = true) ∧
    idleDemo.book = some demoBook ∧ 1 < demoBook.chapters.length ∧
    ((WebB.navigateToChapter 1 3 77 (.ok 8) idleDemo).currentChapterIndex = 1 ∧
      (WebB.navigateToChapter 1 3 77 (.ok 8) idleDemo).pausedAt = 0 ∧
      (WebB.navigateToChapter 1 3 77 (.ok 8) idleDemo).audioBuffer = some ⟨1, 8⟩ ∧
      (WebB.navigateToChapter 1 3 77 (.ok 8) idleDemo).duration = 8 ∧
      (WebB.navigateToChapter 1 3 77 (.ok 8) idleDemo).isPlaying = true ∧
      (WebB.navigateToChapter 1 3 77 (.ok 8) idleDemo).startTime = 3) := by
  have hn : ¬((1 : ℕ) = idleDemo.currentChapterIndex ∧
      idleDemo.audioBuffer.isSome = true) := by simp [idleDemo]
  have hlt : 1 < demoBook.chapters.length := by simp [demoBook]
  exact ⟨hn, rfl, hlt,
    (webB_navigateToChapter_spec 1 3 77 (.ok 8) idleDemo demoBook 8).2.1 hn rfl hlt rfl⟩

/-- Claim C7: `navigateToBookmark` (App.tsx lines 665-673) stops playback,
sets the chapter index to the bookmark's chapter, invokes the loader at the
bookmark's timestamp (observable as `pausedAt = currentTime = timestamp` and
the freshly decoded buffer for that chapter), and on success starts playback
anchored at the timestamp clamped by `actualOffset` (the ε clamp near the
buffer end). -/
theorem webB_navigateToBookmark_spec (b : Bookmark) (now : ℚ)
    (res : Except Unit ℚ) (st : PlayerState) (bk : Book) (dur : ℚ)
    (hb : st.book = some bk) (hlt : b.chapterIndex < bk.chapters.length)
    (hres : res = .ok dur) :
    (WebB.navigateToBookmark b now res st).currentChapterIndex = b.chapterIndex ∧
    (WebB.navigateToBookmark b now res st).pausedAt = b.timestamp ∧
    (WebB.navigateToBookmark b now res st).currentTime = b.timestamp ∧
    (WebB.navigateToBookmark b now res st).audioBuffer =
      some ⟨b.chapterIndex, dur⟩ ∧
    (WebB.navigateToBookmark b now res st).duration = dur ∧
    (WebB.navigateToBookmark b now res st).isPlaying = true ∧
    (WebB.navigateToBookmark b now res st).startTime =
      now - WebB.actualOffset b.timestamp dur ∧
    (WebB.navigateToBookmark b now res st).statusMessage =
      "Resumed at " ++ WebB.formatTime b.timestamp := by
  subst hres
  simp [WebB.navigateToBookmark, WebB.loadAudio, WebB.loadAudioStart,
    WebB.loadAudioResolve, WebB.playBuffer, WebB.stopAudio, hb, hlt]

/-- Witness for C7: jumping to a bookmark at 5 s into chapter 1 from
`cachedDemo` (chapter 0 cached) reloads chapter 1 (9 s) and starts playing
anchored at `2 - actualOffset 5 9 = -3`. -/
theorem webB_navigateToBookmark_spec_witness :
    cachedDemo.book = some demoBook ∧
    (Bookmark.mk "bm1" "Chapter 1 @ 0:05" 1 5 "snippet" 0).chapterIndex <
      demoBook.chapters.length ∧
    ((WebB.navigateToBookmark (Bookmark.mk "bm1" "Chapter 1 @ 0:05" 1 5 "snippet" 0)
        2 (.ok 9) cachedDemo).currentChapterIndex = 1 ∧
      (WebB.navigateToBookmark (Bookmark.mk "bm1" "Chapter 1 @ 0:05" 1 5 "snippet" 0)
        2 (.ok 9) cachedDemo).pausedAt = 5 ∧
      (WebB.navigateToBookmark (Bookmark.mk "bm1" "Chapter 1 @ 0:05" 1 5 "snippet" 0)
        2 (.ok 9) cachedDemo).currentTime = 5 ∧
      (WebB.navigateToBookmark (Bookmark.mk "bm1" "Chapter 1 @ 0:05" 1 5 "snippet" 0)
        2 (.ok 9) cachedDemo).audioBuffer = some ⟨1, 9⟩ ∧
      (WebB.navigateToBookmark (Bookmark.mk "bm1" "Chapter 1 @ 0:05" 1 5 "snippet" 0)
        2 (.ok 9) cachedDemo).duration = 9 ∧
      (WebB.navigateToBookmark (Bookmark.mk "bm1" "Chapter 1 @ 0:05" 1 5 "snippet" 0)
        2 (.ok 9) cachedDemo).isPlaying = true ∧
      (WebB.navigateToBookmark (Bookmark.mk "bm1" "Chapter 1 @ 0:05" 1 5 "snippet" 0)
        2 (.ok 9) cachedDemo).startTime =
        2 - WebB.actualOffset 5 9 ∧
      (WebB.navigateToBookmark (Bookmark.mk "bm1" "Chapter 1 @ 0:05" 1 5 "snippet" 0)
        2 (.ok 9) cachedDemo).statusMessage =
        "Resumed at " ++ WebB.formatTime 5) := by
  have hlt : (Bookmark.mk "bm1" "Chapter 1 @ 0:05" 1 5 "snippet" 0).chapterIndex <
      demoBook.chapters.length := by simp [demoBook]
  exact ⟨rfl, hlt,
    webB_navigateToBookmark_spec (Bookmark.mk "bm1" "Chapter 1 @ 0:05" 1 5 "snippet" 0)
      2 (.ok 9) cachedDemo demoBook 9 rfl hlt rfl⟩

/-- Claim C5 fails on the code: `loadAudio`'s resolution (App.tsx lines
604-616 / part_000 lines 575-590) never compares the requested chapter with
`currentChapterIndex`, so a stale narration response is applied, not
discarded. The trace: from `idleDemo` the user clicks chapter 1 (the
same-chapter guard is false, the else-branch of `navigateToChapter` runs up
to its `await`), then clicks chapter 2 (guard false again: index 2 ≠ current
1); chapter 2's request resolves first (9 s) and starts playing; then
chapter 1's stale request resolves (7 s) and overwrites the single-slot
cache and `duration` — the final state has `currentChapterIndex = 2` but
holds (and plays) chapter 1's narration. -/
theorem webB_stale_load_overwrites_cache :
    ¬((1 : ℕ) = idleDemo.currentChapterIndex ∧ idleDemo.audioBuffer.isSome = true) ∧
    (let e1 := WebB.navigateToChapterStart 1 idleDemo
     ¬((2 : ℕ) = e1.currentChapterIndex ∧ e1.audioBuffer.isSome = true) ∧
     (let e4 := WebB.navigateToChapterFinish 1 11 (.ok 7)
        (WebB.navigateToChapterFinish 2 10 (.ok 9)
          (WebB.navigateToChapterStart 2 e1))
      e4.currentChapterIndex = 2 ∧
      e4.audioBuffer = some ⟨1, 7⟩ ∧
      e4.duration = 7 ∧
      e4.isPlaying = true)) := by
  refine ⟨by simp [idleDemo], ?_, ?_, ?_, ?_, ?_⟩ <;>
    simp [WebB.navigateToChapterStart, WebB.navigateToChapterFinish,
      WebB.loadAudioStart, WebB.loadAudioResolve, WebB.playBuffer,
      WebB.stopAudio, idleDemo, demoBook]

/-- The `autoCount` only depends on the book. -/
lemma WebB.autoCount_eq_of_book (s s' : PlayerState) (h : s'.book = s.book) :
    WebB.autoCount s' = WebB.autoCount s := by
  unfold WebB.autoCount
  rw [h]

/-- The `loadAudio` never touches the book. -/
lemma WebB.loadAudio_book (idx : ℕ) (seek : ℚ) (res : Except Unit ℚ)
    (st : PlayerState) : (WebB.loadAudio idx seek res st).1.book = st.book := by
  cases hb : st.book with
  | none => simp [WebB.loadAudio, hb]
  | some bk =>
    by_cases hlt : idx < bk.chapters.length <;> cases res <;>
      simp [WebB.loadAudio, WebB.loadAudioStart, WebB.loadAudioResolve, hb, hlt]

/-- The ticker never touches the book. -/
lemma WebB.tick_book (now : ℚ) (st : PlayerState) :
    (WebB.tick now st).book = st.book := by
  by_cases h1 : st.isPlaying = true <;>
    by_cases h2 : st.duration ≤ now - st.startTime ∧ 0 < st.duration <;>
    simp [WebB.tick, h1, h2]

/-- The `navigateToChapterStart` never touches the book. -/
lemma WebB.navigateToChapterStart_book (index : ℕ) (st : PlayerState) :
    (WebB.navigateToChapterStart index st).book = st.book := by
  cases hb : st.book <;>
    simp [WebB.navigateToChapterStart, WebB.loadAudioStart, WebB.stopAudio, hb]

/-- The `navigateToChapterFinish` never touches the book. -/
lemma WebB.navigateToChapterFinish_book (index : ℕ) (now : ℚ)
    (res : Except Unit ℚ) (st : PlayerState) :
    (WebB.navigateToChapterFinish index now res st).book = st.book := by
  cases hb : st.book with
  | none => simp [WebB.navigateToChapterFinish, hb]
  | some bk =>
    by_cases hlt : index < bk.chapters.length <;> cases res <;>
      simp [WebB.navigateToChapterFinish, WebB.loadAudioResolve,
        WebB.playBuffer, WebB.stopAudio, hb, hlt]

/-- The `navigateToBookmark` never touches the book. -/
lemma WebB.navigateToBookmark_book (b : Bookmark) (now : ℚ)
    (res : Except Unit ℚ) (st : PlayerState) :
    (WebB.navigateToBookmark b now res st).book = st.book := by
  cases hb : st.book with
  | none =>
    simp [WebB.navigateToBookmark, WebB.loadAudio, WebB.loadAudioStart,
      WebB.loadAudioResolve, WebB.stopAudio, hb]
  | some bk =>
    by_cases hlt : b.chapterIndex < bk.chapters.length <;> cases res <;>
      simp [WebB.navigateToBookmark, WebB.loadAudio, WebB.loadAudioStart,
        WebB.loadAudioResolve, WebB.playBuffer, WebB.stopAudio, hb, hlt]

/-- Re-filtering for auto-bookmarks after the non-auto filter yields nothing. -/
lemma WebB.filter_auto_after_not (l : List Bookmark) :
    ((l.filter fun bm => !(WebB.isAutoBookmark bm)).filter
      WebB.isAutoBookmark) = [] := by
  induction l with
  | nil => rfl
  | cons a l ih => cases hauto : WebB.isAutoBookmark a <;>
      simp [List.filter_cons, hauto, ih]

/-- The `saveAutoBookmark` leaves at most one auto-bookmark. -/
lemma WebB.autoCount_save_le (nowMs : ℕ) (st : PlayerState)
    (h : WebB.autoCount st ≤ 1) :
    WebB.autoCount (WebB.saveAutoBookmark nowMs st) ≤ 1 := by
  cases hb : st.book with
  | none => simp [WebB.autoCount, WebB.saveAutoBookmark, hb]
  | some bk =>
    cases hch : bk.chapters[st.currentChapterIndex]? with
    | none =>
      simp only [WebB.saveAutoBookmark, hb, hch]
      exact h
    | some ch =>
      simp only [WebB.autoCount, WebB.saveAutoBookmark, hb, hch, List.filter_cons]
      split
      · simp [WebB.filter_auto_after_not]
      · simp [WebB.filter_auto_after_not]

/-- The `togglePlay` preserves "at most one auto-bookmark". -/
lemma WebB.autoCount_togglePlay_le (now : ℚ) (nowMs : ℕ) (res : Except Unit ℚ)
    (st : PlayerState) (h : WebB.autoCount st ≤ 1) :
    WebB.autoCount (WebB.togglePlay now nowMs res st) ≤ 1 := by
  unfold WebB.togglePlay
  by_cases hp : st.isPlaying = true
  · simp only [hp, if_true]
    exact WebB.autoCount_save_le nowMs _ h
  · rw [Bool.not_eq_true] at hp
    simp only [hp, Bool.false_eq_true, if_false]
    cases hbuf : st.audioBuffer with
    | none =>
      cases hl : WebB.loadAudio st.currentChapterIndex st.pausedAt res st with
      | mk st1 b? =>
        have hb1 : st1.book = st.book := by
          have := WebB.loadAudio_book st.currentChapterIndex st.pausedAt res st
          rwa [hl] at this
        cases b? with
        | none => simpa [WebB.autoCount_eq_of_book st st1 hb1] using h
        | some buf =>
          have : (WebB.playBuffer buf st1.pausedAt now st1).book = st1.book := rfl
          simpa [WebB.autoCount_eq_of_book st _ (this.trans hb1)] using h
    | some buf => simpa using h

/-- Every modelled variant-B operation preserves "at most one
auto-bookmark". -/
lemma WebB.autoCount_step_le (s s' : PlayerState) (h : WebB.autoCount s ≤ 1)
    (hs : WebB.BStep s s') : WebB.autoCount s' ≤ 1 := by
  cases hs with
  | toggleStep now nowMs res => exact WebB.autoCount_togglePlay_le now nowMs res s h
  | manualStep nowMs stn hid =>
    cases hb : s.book with
    | none => simp [WebB.autoCount, WebB.addManualBookmark, hb]
    | some bk =>
      cases hch : bk.chapters[s.currentChapterIndex]? with
      | none =>
        simp only [WebB.addManualBookmark, hb, hch]
        exact h
      | some ch =>
        have hauto : WebB.isAutoBookmark
            (Bookmark.mk (Nat.repr nowMs)
              (ch.title ++ " @ " ++ WebB.formatTime s.currentTime)
              s.currentChapterIndex s.currentTime (ch.content.take 100)
              nowMs) = false := hid
        simp only [WebB.autoCount, WebB.addManualBookmark, hb, hch,
          List.filter_cons, hauto]
        simpa [WebB.autoCount, hb] using h
  | navChapStep index now nowMs res =>
    unfold WebB.navigateToChapter
    split
    · exact WebB.autoCount_togglePlay_le now nowMs res s h
    · rw [WebB.autoCount_eq_of_book s _
        ((WebB.navigateToChapterFinish_book _ _ _ _).trans
          (WebB.navigateToChapterStart_book _ _))]
      exact h
  | navBmStep b now res =>
    rw [WebB.autoCount_eq_of_book s _ (WebB.navigateToBookmark_book b now res s)]
    exact h
  | tickStep now =>
    rw [WebB.autoCount_eq_of_book s _ (WebB.tick_book now s)]
    exact h
  | playStep buf offset now => exact h
  | loadStep idx seek res =>
    rw [WebB.autoCount_eq_of_book s _ (WebB.loadAudio_book idx seek res s)]
    exact h
  | stopStep => exact h
  | uploadStep nowMs title author chs => simp [WebB.autoCount]

/-- Claim C9 (amended): every reachable state (from any state with at most
one auto-bookmark, in particular a freshly uploaded book) holds at most one
bookmark with the reserved `auto-` id prefix, and every pause (`togglePlay`
from Playing) replaces the prior auto-bookmark with a fresh one recording
the current chapter and displayed position, placing it at the front AT THAT
MOMENT with no other auto-bookmark behind it. (The claim's "always the
first element" part is false: `addManualBookmark` prepends manual bookmarks
in front of the stored auto-bookmark, see the counterexample.) -/
theorem webB_auto_bookmark_unique_and_pause_refresh :
    (∀ s s' : PlayerState, WebB.autoCount s ≤ 1 →
      Relation.ReflTransGen WebB.BStep s s' → WebB.autoCount s' ≤ 1) ∧
    (∀ (now : ℚ) (nowMs : ℕ) (res : Except Unit ℚ) (st : PlayerState)
        (bk : Book) (ch : Chapter),
      st.isPlaying = true → st.book = some bk →
      bk.chapters[st.currentChapterIndex]? = some ch →
      ∃ bk', (WebB.togglePlay now nowMs res st).book = some bk' ∧
        bk'.bookmarks.head? = some
          (Bookmark.mk ("auto-" ++ Nat.repr nowMs)
            ("Last Position: " ++ ch.title) st.currentChapterIndex
            st.currentTime "Resume from your last position..." nowMs) ∧
        (∀ bm ∈ bk'.bookmarks.tail, WebB.isAutoBookmark bm = false) ∧
        (bk'.bookmarks.filter WebB.isAutoBookmark).length ≤ 1) := by
  constructor
  · intro s s' h hsteps
    induction hsteps with
    | refl => exact h
    | tail _ hstep ih => exact WebB.autoCount_step_le _ _ ih hstep
  · intro now nowMs res st bk ch hp hb hch
    unfold WebB.togglePlay
    simp only [hp, if_true]
    unfold WebB.saveAutoBookmark WebB.stopAudio
    simp only [hb, hch]
    refine ⟨_, rfl, rfl, ?_, ?_⟩
    · intro bm hbm
      have := (List.mem_filter.mp hbm).2
      simpa using this
    · rw [List.filter_cons]
      split
      · simp [WebB.filter_auto_after_not]
      · simp [WebB.filter_auto_after_not]

/-- Witness for C9: adding a manual bookmark from `cachedDemo` keeps the
auto-bookmark count at most one, and pausing `playingDemo` at clock time 6
(`Date.now() = 555`) stores the fresh auto-bookmark for chapter 0 at
position 5 in front with no auto-bookmark behind it. -/
theorem webB_auto_bookmark_unique_and_pause_refresh_witness :
    WebB.autoCount cachedDemo ≤ 1 ∧
    WebB.autoCount (WebB.addManualBookmark 123 cachedDemo) ≤ 1 ∧
    playingDemo.isPlaying = true ∧
    playingDemo.book = some demoBook ∧
    demoBook.chapters[playingDemo.currentChapterIndex]? = some (demoChapter 0) ∧
    (∃ bk', (WebB.togglePlay 6 555 (.error ()) playingDemo).book = some bk' ∧
      bk'.bookmarks.head? = some
        (Bookmark.mk ("auto-" ++ Nat.repr 555)
          ("Last Position: " ++ (demoChapter 0).title)
          playingDemo.currentChapterIndex playingDemo.currentTime
          "Resume from your last position..." 555) ∧
      (∀ bm ∈ bk'.bookmarks.tail, WebB.isAutoBookmark bm = false) ∧
      (bk'.bookmarks.filter WebB.isAutoBookmark).length ≤ 1) := by
  have h0 : WebB.autoCount cachedDemo ≤ 1 := by
    simp [WebB.autoCount, cachedDemo, idleDemo, demoBook]
  refine ⟨h0, ?_, rfl, rfl, rfl, ?_⟩
  · exact webB_auto_bookmark_unique_and_pause_refresh.1 cachedDemo _ h0
      (Relation.ReflTransGen.single
        (WebB.BStep.manualStep 123 cachedDemo (by decide)))
  · exact webB_auto_bookmark_unique_and_pause_refresh.2 6 555 (.error ())
      playingDemo demoBook (demoChapter 0) rfl rfl rfl

/-- Claim C9 counterexample: pause `playingDemo` at `Date.now() = 100`
(storing the auto-bookmark, id `auto-100`, at the front), then add a manual
bookmark at `Date.now() = 200` — the bookmark list becomes
`["200", "auto-100"]`: the auto-bookmark saved by the pause is the SECOND
element, and the first element is not an auto-bookmark. -/
theorem webB_auto_bookmark_not_always_first :
    ((WebB.addManualBookmark 200
        (WebB.togglePlay 5 100 (.error ()) playingDemo)).book.map
      fun bk => bk.bookmarks.map Bookmark.id) =
        some ["200", "auto-" ++ Nat.repr 100] ∧
    ((WebB.addManualBookmark 200
        (WebB.togglePlay 5 100 (.error ()) playingDemo)).book.map
      fun bk => bk.bookmarks.head?.map WebB.isAutoBookmark) =
        some (some false) := by
  constructor <;> decide

/-- A run of variant-A ticks none of which reaches the end of track keeps
the engine playing with the same anchor, duration, buffer and offset. -/
lemma WebA.runTicks_keeps_playing (t1 d : ℚ) :
    ∀ (l : List ℚ) (s : PlayerState),
      s.isPlaying = true → s.sourceActive = true → s.startTime = t1 →
      s.duration = d → s.pausedAt = 0 → (∀ u ∈ l, u - t1 < d) →
      (WebA.runTicks l s).isPlaying = true ∧
        (WebA.runTicks l s).sourceActive = true ∧
        (WebA.runTicks l s).startTime = t1 ∧
        (WebA.runTicks l s).duration = d ∧
        (WebA.runTicks l s).pausedAt = 0
  | [], s, h1, h2, h3, h4, h5, _ => ⟨h1, h2, h3, h4, h5⟩
  | u :: l, s, h1, h2, h3, h4, h5, hl => by
    have hu : u - t1 < d := hl u (List.mem_cons_self u l)
    have hnot : ¬(s.duration ≤ u - s.startTime ∧ 0 < s.duration) := by
      rw [h3, h4]
      rintro ⟨hle, _⟩
      linarith
    have htick : WebA.tick u s =
        { s with currentTime := min (u - s.startTime) s.duration } := by
      unfold WebA.tick
      simp only [h1, if_true, if_neg hnot]
    have hstep : WebA.runTicks (u :: l) s =
        WebA.runTicks l (WebA.tick u s) := rfl
    rw [hstep, htick]
    exact WebA.runTicks_keeps_playing t1 d l _ h1 h2 h3 h4 h5
      (fun v hv => hl v (List.mem_cons_of_mem u hv))

/-- Starting a cached buffer from offset 0 anchors playback at the call's
clock time (shared evaluation step for the claims about variant A). -/
lemma WebA.togglePlay_from_zero (st : PlayerState) (buf : NarrationBuffer)
    (t1 : ℚ) (hp : st.isPlaying = false) (hbuf : st.audioBuffer = some buf)
    (hp0 : st.pausedAt = 0) (hd : 1 / 10 ≤ buf.duration) :
    WebA.togglePlay t1 (.error ()) st =
      { st with startTime := t1, sourceActive := true, isPlaying := true } := by
  unfold WebA.togglePlay WebA.playAudio WebA.playOffset
  have hoff : min st.pausedAt (buf.duration - 1 / 10) = 0 := by
    rw [hp0]
    exact min_eq_left (by linarith)
  simp only [hp, Bool.false_eq_true, if_false, hbuf, hoff, sub_zero]

/-- Claim C1 (amended): from Stopped with a cached buffer and
`pausedAt = 0` (and `duration ≥ ε = 0.1`), `togglePlay` at `t1` and again at
`t2 ≥ t1` — with the interleaved ticker callbacks all strictly before the
end of track, so the second press still finds the engine Playing — leaves
the engine Stopped with `pausedAt` EXACTLY the elapsed clock time
`t2 - t1`, never negative; and provided the presses are within one tick of
each other or some tick fired within the final tick interval (regular
100 ms ticking guarantees one), `pausedAt < duration + 0.1`. The claim's
"never exceeds duration" is false by up to one tick interval (see the
counterexample). -/
theorem webA_toggle_twice_pausedAt (st : PlayerState) (buf : NarrationBuffer)
    (t1 t2 : ℚ) (ticks : List ℚ)
    (hp : st.isPlaying = false) (hbuf : st.audioBuffer = some buf)
    (hp0 : st.pausedAt = 0) (hdur : st.duration = buf.duration)
    (hd : 1 / 10 ≤ buf.duration) (ht : t1 ≤ t2)
    (hticks : ∀ u ∈ ticks, u - t1 < buf.duration)
    (hreg : t2 - t1 ≤ 1 / 10 ∨ ∃ u ∈ ticks, t2 - 1 / 10 ≤ u) :
    (WebA.togglePlay t2 (.error ())
      (WebA.runTicks ticks (WebA.togglePlay t1 (.error ()) st))).isPlaying
        = false ∧
    (WebA.togglePlay t2 (.error ())
      (WebA.runTicks ticks (WebA.togglePlay t1 (.error ()) st))).pausedAt
        = t2 - t1 ∧
    0 ≤ t2 - t1 ∧ t2 - t1 < buf.duration + 1 / 10 := by
  rw [WebA.togglePlay_from_zero st buf t1 hp hbuf hp0 hd]
  obtain ⟨k1, k2, k3, k4, k5⟩ :=
    WebA.runTicks_keeps_playing t1 buf.duration ticks
      { st with startTime := t1, sourceActive := true, isPlaying := true }
      rfl rfl rfl hdur hp0 hticks
  have hbound : t2 - t1 < buf.duration + 1 / 10 := by
    rcases hreg with hsmall | ⟨u, hu, hlate⟩
    · have : (0 : ℚ) < buf.duration := by linarith
      linarith
    · have := hticks u hu
      linarith
  have hfin : WebA.togglePlay t2 (.error ())
      (WebA.runTicks ticks
        { st with startTime := t1, sourceActive := true, isPlaying := true }) =
      WebA.pauseAudio t2
        (WebA.runTicks ticks
          { st with startTime := t1, sourceActive := true, isPlaying := true }) := by
    unfold WebA.togglePlay
    simp [k1]
  rw [hfin]
  unfold WebA.pauseAudio
  simp only [k2, if_true, k3]
  refine ⟨?_, ?_, by linarith, hbound⟩ <;> trivial

/-- Witness for the amended C1: play `cachedDemo` (1 s buffer) at clock 0,
tick at 0.1 … 0.4, pause at clock 0.5: the recorded offset is exactly
0.5 s. -/
theorem webA_toggle_twice_pausedAt_witness :
    cachedDemo.isPlaying = false ∧ cachedDemo.audioBuffer = some ⟨0, 1⟩ ∧
    ((WebA.togglePlay (1 / 2) (.error ())
        (WebA.runTicks [1 / 10, 2 / 10, 3 / 10, 4 / 10]
          (WebA.togglePlay 0 (.error ()) cachedDemo))).isPlaying = false ∧
      (WebA.togglePlay (1 / 2) (.error ())
        (WebA.runTicks [1 / 10, 2 / 10, 3 / 10, 4 / 10]
          (WebA.togglePlay 0 (.error ()) cachedDemo))).pausedAt = 1 / 2 - 0 ∧
      0 ≤ (1 / 2 : ℚ) - 0 ∧ (1 / 2 : ℚ) - 0 < (1 : ℚ) + 1 / 10) := by
  have hticks : ∀ u ∈ ([1 / 10, 2 / 10, 3 / 10, 4 / 10] : List ℚ),
      u - 0 < (NarrationBuffer.mk 0 1).duration := by
    intro u hu
    fin_cases hu <;> norm_num
  have hreg : (1 / 2 : ℚ) - 0 ≤ 1 / 10 ∨
      ∃ u ∈ ([1 / 10, 2 / 10, 3 / 10, 4 / 10] : List ℚ), (1 / 2 : ℚ) - 1 / 10 ≤ u :=
    Or.inr ⟨4 / 10, by simp, by norm_num⟩
  exact ⟨rfl, rfl, webA_toggle_twice_pausedAt cachedDemo ⟨0, 1⟩ 0 (1 / 2)
    [1 / 10, 2 / 10, 3 / 10, 4 / 10] rfl rfl rfl rfl (by norm_num) (by norm_num)
    hticks hreg⟩

/-- Claim C1 counterexample: with a 0.95 s buffer, play at clock 0, let the
100 ms ticker fire at 0.1 … 0.9 (all before the end of track, so the engine
is still Playing), and press again at 0.97: the engine stops with
`pausedAt = 0.97`, which EXCEEDS the 0.95 s duration. -/
theorem webA_toggle_twice_exceeds_duration :
    (WebA.togglePlay (97 / 100) (.error ())
      (WebA.runTicks
        [1 / 10, 2 / 10, 3 / 10, 4 / 10, 5 / 10, 6 / 10, 7 / 10, 8 / 10, 9 / 10]
        (WebA.togglePlay 0 (.error ()) shortDemo))).isPlaying = false ∧
    (WebA.togglePlay (97 / 100) (.error ())
      (WebA.runTicks
        [1 / 10, 2 / 10, 3 / 10, 4 / 10, 5 / 10, 6 / 10, 7 / 10, 8 / 10, 9 / 10]
        (WebA.togglePlay 0 (.error ()) shortDemo))).pausedAt = 97 / 100 ∧
    (WebA.togglePlay (97 / 100) (.error ())
      (WebA.runTicks
        [1 / 10, 2 / 10, 3 / 10, 4 / 10, 5 / 10, 6 / 10, 7 / 10, 8 / 10, 9 / 10]
        (WebA.togglePlay 0 (.error ()) shortDemo))).duration = 19 / 20 ∧
    (97 / 100 : ℚ) > 19 / 20 := by
  rw [WebA.togglePlay_from_zero shortDemo ⟨0, 19 / 20⟩ 0 rfl rfl rfl (by norm_num)]
  obtain ⟨k1, k2, k3, k4, k5⟩ :=
    WebA.runTicks_keeps_playing 0 (19 / 20)
      [1 / 10, 2 / 10, 3 / 10, 4 / 10, 5 / 10, 6 / 10, 7 / 10, 8 / 10, 9 / 10]
      { shortDemo with startTime := 0, sourceActive := true, isPlaying := true }
      rfl rfl rfl rfl rfl (by intro u hu; fin_cases hu <;> norm_num)
  unfold WebA.togglePlay
  rw [if_pos k1]
  unfold WebA.pauseAudio
  rw [if_pos k2]
  refine ⟨rfl, ?_, ?_, by norm_num⟩
  · simp only [k3]
    norm_num
  · simp only [k4]

/-- The `playAudio` leaves the offset bookkeeping untouched. -/
lemma WebA.invA_playAudio (now : ℚ) (st : PlayerState) (h : WebA.InvA st) :
    WebA.InvA (WebA.playAudio now st) := by
  unfold WebA.InvA WebA.playAudio at *
  cases hbuf : st.audioBuffer <;> simpa [hbuf] using h

/-- The `pauseAudio` keeps the offset in range under the clock guards. -/
lemma WebA.invA_pauseAudio (now : ℚ) (st : PlayerState)
    (h0 : st.sourceActive = true → 0 ≤ now - st.startTime)
    (h1 : st.sourceActive = true → now - st.startTime ≤ st.duration + 1 / 10)
    (h : WebA.InvA st) : WebA.InvA (WebA.pauseAudio now st) := by
  unfold WebA.InvA WebA.pauseAudio at *
  by_cases hs : st.sourceActive = true
  · simp only [hs, if_true]
    exact ⟨h0 hs, h1 hs⟩
  · rw [Bool.not_eq_true] at hs
    simpa [hs] using h

/-- A load with an in-range seek keeps the offset in range. -/
lemma WebA.invA_load (index : ℕ) (seekTo : ℚ) (res : Except Unit ℚ)
    (st : PlayerState)
    (hseek : ∀ dur, res = .ok dur → 0 ≤ seekTo ∧ seekTo ≤ dur)
    (h : WebA.InvA st) : WebA.InvA (WebA.loadChapterAudio index seekTo res st) := by
  unfold WebA.InvA WebA.loadChapterAudio at *
  cases hb : st.book with
  | none => simpa [hb] using h
  | some bk =>
    cases hch : bk.chapters[index]? with
    | none => simpa [hb, hch] using h
    | some ch =>
      cases res with
      | ok dur =>
        have hs := hseek dur rfl
        simp only [hb, hch]
        exact ⟨hs.1, by linarith [hs.2]⟩
      | error e => simpa [hb, hch] using h

/-- A tick keeps the offset in range under the clock guards. -/
lemma WebA.invA_tick (now : ℚ) (st : PlayerState)
    (h0 : st.sourceActive = true → 0 ≤ now - st.startTime)
    (h1 : st.sourceActive = true → now - st.startTime ≤ st.duration + 1 / 10)
    (h : WebA.InvA st) : WebA.InvA (WebA.tick now st) := by
  unfold WebA.tick
  by_cases hp : st.isPlaying = true
  · by_cases hc : st.duration ≤ now - st.startTime ∧ 0 < st.duration
    · simp only [hp, if_true, if_pos hc]
      exact WebA.invA_pauseAudio now _ h0 h1 h
    · simp only [hp, if_true, if_neg hc]
      exact h
  · rw [Bool.not_eq_true] at hp
    simpa [hp] using h

/-- The `togglePlay` keeps the offset in range under the guards. -/
lemma WebA.invA_toggle (now : ℚ) (res : Except Unit ℚ) (st : PlayerState)
    (h0 : st.sourceActive = true → 0 ≤ now - st.startTime)
    (h1 : st.sourceActive = true → now - st.startTime ≤ st.duration + 1 / 10)
    (h2 : ∀ dur, res = .ok dur → st.pausedAt ≤ dur)
    (h : WebA.InvA st) : WebA.InvA (WebA.togglePlay now res st) := by
  unfold WebA.togglePlay
  by_cases hp : st.isPlaying = true
  · simp only [hp, if_true]
    exact WebA.invA_pauseAudio now st h0 h1 h
  · rw [Bool.not_eq_true] at hp
    simp only [hp, Bool.false_eq_true, if_false]
    cases hbuf : st.audioBuffer with
    | none =>
      exact WebA.invA_playAudio now _
        (WebA.invA_load _ _ _ _ (fun dur hres => ⟨h.1, h2 dur hres⟩) h)
    | some buf => exact WebA.invA_playAudio now st h

/-- The `jumpToBookmark` keeps the offset in range under the guards. -/
lemma WebA.invA_jump (b : Bookmark) (now : ℚ) (res : Except Unit ℚ)
    (st : PlayerState)
    (h0 : st.sourceActive = true → 0 ≤ now - st.startTime)
    (h1 : st.sourceActive = true → now - st.startTime ≤ st.duration + 1 / 10)
    (hb0 : 0 ≤ b.timestamp) (hb1 : b.timestamp ≤ st.duration + 1 / 10)
    (hb2 : ∀ dur, res = .ok dur → b.timestamp ≤ dur)
    (h : WebA.InvA st) : WebA.InvA (WebA.jumpToBookmark b now res st) := by
  unfold WebA.jumpToBookmark
  have hst1 : WebA.InvA (WebA.pauseAudio now st) :=
    WebA.invA_pauseAudio now st h0 h1 h
  by_cases hbc : b.chapterIndex ≠ (WebA.pauseAudio now st).currentChapterIndex
  · simp only [if_pos hbc]
    exact WebA.invA_playAudio now _
      (WebA.invA_load _ _ _ _ (fun dur hres => ⟨hb0, hb2 dur hres⟩) hst1)
  · simp only [if_neg hbc]
    apply WebA.invA_playAudio
    refine ⟨hb0, ?_⟩
    have : (WebA.pauseAudio now st).duration = st.duration := by
      unfold WebA.pauseAudio
      split <;> rfl
    show b.timestamp ≤ (WebA.pauseAudio now st).duration + 1 / 10
    rw [this]
    exact hb1

/-- The chapter-list click keeps the offset in range under the guards. -/
lemma WebA.invA_click (i : ℕ) (now : ℚ) (res : Except Unit ℚ)
    (st : PlayerState)
    (h0 : st.sourceActive = true → 0 ≤ now - st.startTime)
    (h1 : st.sourceActive = true → now - st.startTime ≤ st.duration + 1 / 10)
    (h2 : ∀ dur, res = .ok dur → st.pausedAt ≤ dur)
    (h3 : ∀ dur, res = .ok dur → 0 ≤ dur)
    (h : WebA.InvA st) : WebA.InvA (WebA.chapterListClick i now res st) := by
  unfold WebA.chapterListClick
  by_cases hc : i = st.currentChapterIndex ∧ st.audioBuffer.isSome = true
  · simp only [if_pos hc]
    exact WebA.invA_toggle now res st h0 h1 h2 h
  · simp only [if_neg hc]
    exact WebA.invA_load i 0 res _
      (fun dur hres => ⟨le_refl 0, h3 dur hres⟩)
      (WebA.invA_pauseAudio now st h0 h1 h)

/-- One guarded step preserves the offset bookkeeping invariant. -/
lemma WebA.invA_step (s s' : PlayerState) (h : WebA.InvA s)
    (hs : WebA.GStep s s') : WebA.InvA s' := by
  cases hs with
  | playStep now stn => exact WebA.invA_playAudio now s h
  | pauseStep now stn h0 h1 => exact WebA.invA_pauseAudio now s h0 h1 h
  | loadStep index seekTo res stn hseek =>
    exact WebA.invA_load index seekTo res s hseek h
  | toggleStep now res stn h0 h1 h2 =>
    exact WebA.invA_toggle now res s h0 h1 h2 h
  | tickStep now stn h0 h1 => exact WebA.invA_tick now s h0 h1 h
  | jumpStep b now res stn h0 h1 hb0 hb1 hb2 =>
    exact WebA.invA_jump b now res s h0 h1 hb0 hb1 hb2 h
  | clickStep i now res stn h0 h1 h2 h3 =>
    exact WebA.invA_click i now res s h0 h1 h2 h3 h

/-- Claim C8 (amended): from any state whose offset satisfies
`pausedAt ∈ [0, duration + 0.1]` (e.g. a freshly loaded buffer with an
in-range seek), every sequence of the modelled operations — play, pause,
togglePlay, load, ticker tick, bookmark jump and chapter click — keeps
`pausedAt ∈ [0, durationSeconds + 0.1]`, provided the clock is monotone,
pauses and ticks happen at most one 100 ms ticker interval past the end of
track and every seek offset lies within the target buffer's duration.
The claim's exact interval `[0, durationSeconds]` is false: stopping at end
of track can overshoot by up to one tick (see the counterexample). -/
theorem webA_pausedAt_bounds (s s' : PlayerState)
    (hInv : 0 ≤ s.pausedAt ∧ s.pausedAt ≤ s.duration + 1 / 10)
    (hsteps : Relation.ReflTransGen WebA.GStep s s') :
    0 ≤ s'.pausedAt ∧ s'.pausedAt ≤ s'.duration + 1 / 10 := by
  induction hsteps with
  | refl => exact hInv
  | tail _ hstep ih => exact WebA.invA_step _ _ ih hstep

/-- Witness for the amended C8: loading chapter 1 with a 2 s buffer at seek
0.5 from `cachedDemo` keeps the offset within `[0, duration + 0.1]`. -/
theorem webA_pausedAt_bounds_witness :
    (0 ≤ cachedDemo.pausedAt ∧
      cachedDemo.pausedAt ≤ cachedDemo.duration + 1 / 10) ∧
    (0 ≤ (WebA.loadChapterAudio 1 (1 / 2) (.ok 2) cachedDemo).pausedAt ∧
      (WebA.loadChapterAudio 1 (1 / 2) (.ok 2) cachedDemo).pausedAt ≤
        (WebA.loadChapterAudio 1 (1 / 2) (.ok 2) cachedDemo).duration + 1 / 10) := by
  have h0 : 0 ≤ cachedDemo.pausedAt ∧
      cachedDemo.pausedAt ≤ cachedDemo.duration + 1 / 10 := by
    norm_num [cachedDemo, idleDemo]
  exact ⟨h0, webA_pausedAt_bounds cachedDemo _ h0
    (Relation.ReflTransGen.single
      (WebA.GStep.loadStep 1 (1 / 2) (.ok 2) cachedDemo
        (fun dur hres => by cases hres; norm_num)))⟩

/-- Claim C8 counterexample: with the 0.95 s buffer of `shortDemo` playing
from clock 0, the ticker callback at clock 1 reaches the end of track and
stops via `pauseAudio`, recording `pausedAt = 1`, which lies OUTSIDE
`[0, durationSeconds] = [0, 0.95]` — in a state with a loaded buffer,
right after a ticker-tick operation. -/
theorem webA_pausedAt_exceeds_duration_after_tick :
    (WebA.tick 1 (WebA.togglePlay 0 (.error ()) shortDemo)).audioBuffer =
      some ⟨0, 19 / 20⟩ ∧
    (WebA.tick 1 (WebA.togglePlay 0 (.error ()) shortDemo)).pausedAt = 1 ∧
    (WebA.tick 1 (WebA.togglePlay 0 (.error ()) shortDemo)).duration = 19 / 20 ∧
    (19 / 20 : ℚ) < 1 := by
  rw [WebA.togglePlay_from_zero shortDemo ⟨0, 19 / 20⟩ 0 rfl rfl rfl (by norm_num)]
  refine ⟨?_, ?_, ?_, by norm_num⟩ <;>
    simp [WebA.tick, WebA.pauseAudio, shortDemo, idleDemo] <;> norm_num
